import Mathlib

/-!
Verification of the hierarchical job-tree controller and view-coordination
state machine of a terminal CI dashboard (jenkins-tui).

The development shallowly embeds:
  - the tree widget (`JobEntry`, `load_jobs`, `handle_tree_click`, the
    LRU-bounded label cache of `render_tree_label`), and
  - the application-level message handlers (`handle_root_click`,
    `handle_job_click`, `action_refresh_tree`)
as pure Lean functions.  Imperative mutation becomes explicit state passing;
the cooperative scheduler (the framework message pump that processes
`call_later` callbacks one at a time, in FIFO order, each run to completion)
becomes an explicit callback queue drained by a fold; network fetches become
`Except`-valued parameters supplied at the unique suspension points.
-/

/-! ## Python string primitives

The source computes node names with `url.strip("/").split("/job/")` and
`"/".join(...)`, decodes labels with `urllib.parse.unquote`, and extracts a
request path with `urllib.parse.urlparse(url).path`.  These are embedded over
`List Char`, mirroring CPython semantics on the inputs that occur here.
-/

/-- Python `s.strip("/")`: remove every leading and trailing occurrence of the
single character `t`. -/
def stripRun (t : Char) (l : List Char) : List Char :=
  ((l.dropWhile (fun c => c = t)).reverse.dropWhile (fun c => c = t)).reverse

/-- If `sep` is a prefix of the second list, return the remainder, else `none`. -/
def dropSep : List Char → List Char → Option (List Char)
  | [], l => some l
  | _ :: _, [] => none
  | a :: as, b :: bs => if a = b then dropSep as bs else none

/-- Worker for `splitOnCl`; the fuel starts at the length of the list, which
suffices because every step consumes at least one character once `sep` is
non-empty. -/
def splitOnAux (sep : List Char) : Nat → List Char → List Char → List (List Char)
  | 0, l, acc => [acc.reverse ++ l]
  | fuel + 1, l, acc =>
    match l with
    | [] => [acc.reverse]
    | c :: rest =>
      match dropSep sep l with
      | some remainder => acc.reverse :: splitOnAux sep fuel remainder []
      | none => splitOnAux sep fuel rest (c :: acc)

/-- Python `s.split(sep)` for a non-empty separator: split at each
left-most, non-overlapping occurrence of `sep`. -/
def splitOnCl (sep l : List Char) : List (List Char) :=
  if sep = [] then [l] else splitOnAux sep l.length l []

/-- Python `sep.join(pieces)`. -/
def joinWith (sep : List Char) : List (List Char) → List Char
  | [] => []
  | [x] => x
  | x :: y :: rest => x ++ sep ++ joinWith sep (y :: rest)

/-- The name computation of `load_jobs`:
`"/".join(entry["url"].strip("/").split("/job/")[1:])`. -/
def fullNameOfUrl (url : String) : String :=
  String.mk (joinWith ['/'] ((splitOnCl "/job/".toList (stripRun '/' url.toList)).drop 1))

/-- Value of a hexadecimal digit character, if it is one. -/
def hexDigit (c : Char) : Option Nat :=
  if ('0' ≤ c ∧ c ≤ '9') then some (c.toNat - '0'.toNat)
  else if ('a' ≤ c ∧ c ≤ 'f') then some (c.toNat - 'a'.toNat + 10)
  else if ('A' ≤ c ∧ c ≤ 'F') then some (c.toNat - 'A'.toNat + 10)
  else none

/-- Percent-decoding of `urllib.parse.unquote`, at the code-point level (the
multi-byte UTF-8 recombination of CPython is not needed for these claims). -/
def unquoteList : List Char → List Char
  | '%' :: a :: b :: rest =>
    match hexDigit a, hexDigit b with
    | some x, some y => Char.ofNat (16 * x + y) :: unquoteList rest
    | _, _ => '%' :: unquoteList (a :: b :: rest)
  | c :: rest => c :: unquoteList rest
  | [] => []

/-- Python `urllib.parse.unquote`. -/
def unquote (s : String) : String :=
  String.mk (unquoteList s.toList)

/-- Python `urlparse(u).path` on the absolute `scheme://host/...` URLs the
server hands out: everything from the first slash after the authority. -/
def urlPath (u : String) : String :=
  match splitOnCl "://".toList u.toList with
  | [_, rest] => String.mk (rest.dropWhile (fun c => c ≠ '/'))
  | _ => u

/-! ## Job hierarchy model (`tree_widget.py`)

A raw job descriptor is the JSON object the server returns: `_class`, `name`,
`url`, an optional `color`, and an optional nested `jobs` list.  `JobEntry`
mirrors the dataclass of the same name; `TreeNode` mirrors the framework tree
node the widget stores a `JobEntry` in (`label`, `data`, `loaded`, `expanded`,
children). -/

/-- A raw job descriptor as consumed by `load_jobs`. -/
inductive RawJob where
  | mk (rawClass : String) (rawName : String) (rawUrl : String)
       (rawColor : Option String) (rawJobs : Option (List RawJob))

/-- The descriptor field keyed by the string `_class`. -/
def RawJob.rawClass : RawJob → String
  | .mk c _ _ _ _ => c

/-- The descriptor field keyed by the string `name`. -/
def RawJob.rawName : RawJob → String
  | .mk _ n _ _ _ => n

/-- The descriptor field keyed by the string `url`. -/
def RawJob.rawUrl : RawJob → String
  | .mk _ _ u _ _ => u

/-- The optional descriptor field keyed by the string `color`. -/
def RawJob.rawColor : RawJob → Option String
  | .mk _ _ _ c _ => c

/-- The optional descriptor field keyed by the string `jobs`. -/
def RawJob.rawJobs : RawJob → Option (List RawJob)
  | .mk _ _ _ _ j => j

/-- The `JobEntry` dataclass of `tree_widget.py`. -/
structure JobEntry where
  name : String
  url : String
  color : String
  type : String
  jobs : List RawJob

/-- A framework tree node carrying a `JobEntry`, with its label text, its
`loaded` flag, its `expanded` flag and its children. -/
inductive TreeNode where
  | mk (label : String) (data : JobEntry) (loaded : Bool) (expanded : Bool)
       (children : List TreeNode)

/-- Label accessor. -/
def TreeNode.label : TreeNode → String
  | .mk l _ _ _ _ => l

/-- Data accessor. -/
def TreeNode.data : TreeNode → JobEntry
  | .mk _ d _ _ _ => d

/-- Loaded-flag accessor. -/
def TreeNode.loaded : TreeNode → Bool
  | .mk _ _ ld _ _ => ld

/-- Expanded-flag accessor. -/
def TreeNode.expanded : TreeNode → Bool
  | .mk _ _ _ e _ => e

/-- Children accessor. -/
def TreeNode.children : TreeNode → List TreeNode
  | .mk _ _ _ _ c => c

/-- Framework `node.expand(b)`: set the expanded flag. -/
def TreeNode.setExpanded : TreeNode → Bool → TreeNode
  | .mk l d ld _ c, b => .mk l d ld b c

/-- Framework `node.toggle()`: `expand(not expanded)`. -/
def TreeNode.toggle (n : TreeNode) : TreeNode :=
  n.setExpanded (!n.expanded)

/-- The `type_map` dict of the widget constructor. -/
def type_map : List (String × String) :=
  [("org.jenkinsci.plugins.workflow.job.WorkflowJob", "job"),
   ("com.cloudbees.hudson.plugins.folder.Folder", "folder"),
   ("org.jenkinsci.plugins.workflow.multibranch.WorkflowMultiBranchProject", "multibranch")]

/-- `self.type_map.get(entry["_class"], "")`. -/
def typeOf (cls : String) : String :=
  (type_map.lookup cls).getD ""

/-- The `color_map` dict of the widget constructor (status color to icon). -/
def color_map : List (String × String) :=
  [("aborted", "❌"), ("blue", "🔵"), ("blue_anime", "🔄"), ("disabled", "⭕"),
   ("grey", "⚪"), ("notbuilt", "⏳"), ("red_anime", "🔄"), ("red", "🔴"),
   ("yellow", "🟡"), ("none", "🟣")]

/-- The icon chosen by `render_tree_label` from the node type, the expand
flag and the status color (`self.color_map.get(node.data.color, "?")` in the
default branch). -/
def render_icon (type : String) (expanded : Bool) (color : String) : String :=
  if type = "root" then "📂"
  else if type = "folder" then (if expanded then "📂" else "📁")
  else if type = "multibranch" then "🌱"
  else (color_map.lookup color).getD "?"

/-- A failure of the abstract CI data source (a raised client exception). -/
structure DataSourceError where
  msg : String
deriving DecidableEq

/-- The per-descriptor body of the `load_jobs` loop: resolve the type tag via
`type_map` (defaulting to `""`), build the display label (`"chicken"` in
chicken mode, else the percent-decoded `name`), derive the full name from the
URL, and package the `JobEntry` with `entry.get("color", "none")` and
`entry.get("jobs", [])`.  Returns the display label and the entry. -/
def processEntry (chicken : Bool) (entry : RawJob) : String × JobEntry :=
  let typeof := typeOf entry.rawClass
  let clean_name := if chicken then "chicken" else unquote entry.rawName
  let full_name := fullNameOfUrl entry.rawUrl
  (clean_name,
   { name := full_name, url := entry.rawUrl,
     color := entry.rawColor.getD "none", type := typeof,
     jobs := entry.rawJobs.getD [] })

/-- `await node.add(clean_name, job)` creates a fresh child node, initially
unloaded and collapsed, with no children of its own. -/
def mkChildNode (chicken : Bool) (entry : RawJob) : TreeNode :=
  let p := processEntry chicken entry
  TreeNode.mk p.1 p.2 false false []

/-- `JenkinsTree.load_jobs`: for the root node the child descriptors come from
the awaited `client.get_jobs(recursive=True)` call (passed here as the
`fetch` argument — the unique suspension point); for any other node they come
from the seed `node.data.jobs` with no network call.  A failed fetch raises
before any mutation, so the error branch commits nothing.  On success every
descriptor is appended as a child, then `node.loaded = True` and
`await node.expand()`. -/
def load_jobs (chicken : Bool) (fetch : Except DataSourceError (List RawJob))
    (node : TreeNode) : Except DataSourceError TreeNode :=
  match (if node.data.type = "root" then fetch else .ok node.data.jobs) with
  | .error e => .error e
  | .ok jobs =>
      .ok (TreeNode.mk node.label node.data true true
            (node.children ++ jobs.map (mkChildNode chicken)))

/-- A navigation message emitted by `handle_tree_click` (`JobClick` carries
`node_data.name` and `node_data.url`; `RootClick` carries nothing). -/
inductive TreeMsg where
  | jobClick (name url : String)
  | rootClick
deriving DecidableEq

/-- `JenkinsTree.handle_tree_click`: dispatch on the clicked node.  The first
branch tests `node_data.type == "job"`, the second tests
`node_data.name == "root"`, and the final branch loads (then expands) an
unloaded node or toggles a loaded one.  Returns the updated node and the
emitted message, or the propagated fetch failure. -/
def handle_tree_click (chicken : Bool) (fetch : Except DataSourceError (List RawJob))
    (node : TreeNode) : Except DataSourceError (TreeNode × Option TreeMsg) :=
  if node.data.type = "job" then
    .ok (node, some (.jobClick node.data.name node.data.url))
  else if node.data.name = "root" then
    .ok (node, some .rootClick)
  else if node.loaded = false then
    match load_jobs chicken fetch node with
    | .error e => .error e
    | .ok loadedNode => .ok (loadedNode.setExpanded true, none)
  else
    .ok (node.toggle, none)

/-- A session of `k` successive clicks on the same node; a failed click leaves
the node unchanged (the exception propagates and no state was mutated). -/
def iterClick (chicken : Bool) (fetch : Except DataSourceError (List RawJob)) :
    Nat → TreeNode → TreeNode
  | 0, n => n
  | k + 1, n =>
    match handle_tree_click chicken fetch n with
    | .ok p => iterClick chicken fetch k p.1
    | .error _ => iterClick chicken fetch k n

/-! ## The bounded label-render cache

`render_tree_label` is decorated with `lru_cache(maxsize=1024 * 32)`.  Its
cache is modelled by its key list in most-recently-used-first order: an access
moves the key to the front (erasing any previous occurrence) and truncates to
the capacity, which is exactly the `functools` bookkeeping — a hit is a
move-to-front, a miss an insertion that first evicts the least-recently-used
key when the cache is full. -/

/-- The cache key of `render_tree_label`: the node identity plus the five
explicit arguments `(type, expanded, is_cursor, is_hover, has_focus)`. -/
abbrev CacheKey := Nat × String × Bool × Bool × Bool × Bool

/-- The capacity `maxsize=1024 * 32` of the `lru_cache` decorator. -/
def cacheCapacity : Nat := 1024 * 32

/-- One cache access: the key becomes most-recently-used and at most
`cap` keys survive. -/
def lruInsert {K : Type} [DecidableEq K] (cap : Nat) (cache : List K) (k : K) : List K :=
  k :: (cache.erase k).take (cap - 1)

/-- A sequence of cache accesses, oldest first. -/
def lruInsertAll {K : Type} [DecidableEq K] (cap : Nat) (cache : List K)
    (ks : List K) : List K :=
  ks.foldl (lruInsert cap) cache

/-! ## The view coordinator (`app.py`)

`JenkinsTUI` keeps `current_node` (a reactive string, initialized to
`"root"`), the container panel, and — through `call_later` — a FIFO queue of
pending callbacks that the single-threaded message pump runs one at a time,
each to completion.  The tree sidebar is carried along so that
`action_refresh_tree` can be stated on the same state. -/

/-- The result of `client.get_info_for_job(path)`: display name, description
and the (possibly empty) list of health-report descriptions. -/
structure BuildInfo where
  displayName : String
  description : String
  healthReport : List String
deriving DecidableEq

/-- What the container currently displays: the home composition
(info + build queue + executor status) or a job-detail composition
(info panel title and text, plus a build table scoped to the job URL). -/
inductive PanelView where
  | home
  | detail (title text url : String)
deriving DecidableEq

/-- A callback handed to `call_later`, pending in the message queue. -/
inductive Cb where
  | setHome
  | setJob (name url : String)
deriving DecidableEq

/-- The coordinator state of `JenkinsTUI`. -/
structure AppState where
  current_node : String
  panel : PanelView
  pending : List Cb
  tree : TreeNode

/-- The chicken-mode description text of `set_job`. -/
def lorum : String :=
  "Chicken chicken chicken chick chick, chicken chicken chick. Chick chicken chicken chick. Chicken chicken chicken chick, egg chicken chicken. Chicken."

/-- The job-detail panel built by the body of `set_job` once its
`get_info_for_job` fetch (the function `getInfo`, keyed by
`urlparse(url).path`) has resolved: info panel titled by the display name with
the description text (plus the first health report when present), and a build
table scoped to the message URL. -/
def jobDetailPanel (chicken : Bool) (getInfo : String → BuildInfo) (url : String) :
    PanelView :=
  let build_info := getInfo (urlPath url)
  let name := if chicken then "chicken" else build_info.displayName
  let description := if chicken then lorum else build_info.description
  let info_text := "[bold]description[/bold]\n" ++ description ++
    (match build_info.healthReport with
     | [] => ""
     | h :: _ => "\n\n[bold]health[/bold]\n" ++ h)
  PanelView.detail name info_text url

/-- The `set_job` callback of `handle_job_click`: fetch the job detail and
swap the container to the job-detail composition.  Note: the source performs
no guard on completion — the swap is unconditional. -/
def set_job (chicken : Bool) (getInfo : String → BuildInfo) (url : String)
    (s : AppState) : AppState :=
  { s with panel := jobDetailPanel chicken getInfo url }

/-- The `set_home` callback of `handle_root_click`: swap the container back to
the home composition. -/
def set_home (s : AppState) : AppState :=
  { s with panel := PanelView.home }

/-- `JenkinsTUI.handle_root_click`: if `current_node` differs from `"root"`,
set it to `"root"` and queue `set_home` via `call_later`; otherwise do
nothing. -/
def handle_root_click (s : AppState) : AppState :=
  if s.current_node ≠ "root" then
    { s with current_node := "root", pending := s.pending ++ [Cb.setHome] }
  else s

/-- `JenkinsTUI.handle_job_click`: if the message's `node_name` differs from
`current_node`, set `current_node` to it (before any fetch) and queue
`set_job` via `call_later`; otherwise do nothing. -/
def handle_job_click (node_name url : String) (s : AppState) : AppState :=
  if node_name ≠ s.current_node then
    { s with current_node := node_name, pending := s.pending ++ [Cb.setJob node_name url] }
  else s

/-- Run one pending callback to completion (the message pump awaits each
callback fully before the next). -/
def runCb (chicken : Bool) (getInfo : String → BuildInfo) (s : AppState) :
    Cb → AppState
  | .setHome => set_home s
  | .setJob _ url => set_job chicken getInfo url s

/-- Drain the callback queue in FIFO order, each callback run to completion
(neither callback posts further callbacks). -/
def runAll (chicken : Bool) (getInfo : String → BuildInfo) (s : AppState) : AppState :=
  s.pending.foldl (runCb chicken getInfo) { s with pending := [] }

/-- The `JobEntry` the widget constructor gives the root node. -/
def rootEntry : JobEntry :=
  { name := "root", url := "", color := "", type := "root", jobs := [] }

/-- A freshly constructed `JenkinsTree`: the root node labelled
`"pipelines"`, unloaded, collapsed, childless. -/
def newTreeRoot : TreeNode :=
  TreeNode.mk "pipelines" rootEntry false false []

/-- Mounting a fresh tree runs `on_mount`, which performs `load_jobs(root)`;
when the hierarchy fetch fails the new tree keeps its unloaded root (the
exception propagates before any child is added). -/
def mountTree (chicken : Bool) (fetch : Except DataSourceError (List RawJob)) : TreeNode :=
  match load_jobs chicken fetch newTreeRoot with
  | .ok t => t
  | .error _ => newTreeRoot

/-- `JenkinsTUI.action_refresh_tree`: build a brand-new `JenkinsTree` and swap
it into the sidebar scroll view (mounting it loads the new root); nothing else
in the application state is touched. -/
def action_refresh_tree (chicken : Bool) (fetch : Except DataSourceError (List RawJob))
    (s : AppState) : AppState :=
  { s with tree := mountTree chicken fetch }

/-! ## Concrete instances used by counterexamples and witnesses -/

/-- The expand flag after `k` toggles starting from `b`. -/
def expandedAfter (k : Nat) (b : Bool) : Bool :=
  if k % 2 = 0 then b else !b

/-- A leaf job descriptor nested one folder deep, as the server returns it. -/
def rawSvcA : RawJob :=
  RawJob.mk "org.jenkinsci.plugins.workflow.job.WorkflowJob" "svc-a"
    "https://example.com/job/team/job/svc-a/" (some "blue") none

/-- The same job sitting at the server root. -/
def rawTopSvcA : RawJob :=
  RawJob.mk "org.jenkinsci.plugins.workflow.job.WorkflowJob" "svc-a"
    "https://example.com/job/svc-a/" (some "blue") none

/-- A descriptor with an unrecognized type tag, no color and no jobs field. -/
def rawWeird : RawJob :=
  RawJob.mk "weird.plugin.UnknownItem" "weird" "https://example.com/job/weird/" none none

/-- A folder node whose derived name happens to be `"root"` (a top-level
folder the server calls `root`, at `.../job/root/`). -/
def folderRootEntry : JobEntry :=
  { name := "root", url := "https://example.com/job/root/", color := "none",
    type := "folder", jobs := [] }

/-- The unloaded tree node for `folderRootEntry`. -/
def folderRootNode : TreeNode :=
  TreeNode.mk "root" folderRootEntry false false []

/-- The entry of a plain job node. -/
def jobEntryEx : JobEntry :=
  { name := "team/svc-a", url := "https://example.com/job/team/job/svc-a/",
    color := "blue", type := "job", jobs := [] }

/-- A job node in the tree. -/
def jobNodeEx : TreeNode :=
  TreeNode.mk "svc-a" jobEntryEx false false []

/-- The entry of a folder with one seeded child descriptor. -/
def folderEntryEx : JobEntry :=
  { name := "team", url := "https://example.com/job/team/", color := "none",
    type := "folder", jobs := [rawSvcA] }

/-- The folder node for `folderEntryEx`, not yet loaded. -/
def folderNodeEx : TreeNode :=
  TreeNode.mk "team" folderEntryEx false false []

/-- The same folder after a load, for the toggle branch. -/
def loadedFolderEx : TreeNode :=
  TreeNode.mk "team" folderEntryEx true true [mkChildNode false rawSvcA]

/-- A job-detail fetch stub: the display name records the requested path. -/
def giEx : String → BuildInfo :=
  fun p => { displayName := p, description := "d", healthReport := [] }

/-- The coordinator state right after startup: selection `"root"`, home
panel, empty callback queue, fresh tree. -/
def app0 : AppState :=
  { current_node := "root", panel := PanelView.home, pending := [], tree := newTreeRoot }

/-- The state after clicking job `A` and then job `B` before any queued
callback has run. -/
def appAB : AppState :=
  handle_job_click "B" "https://example.com/job/B/"
    (handle_job_click "A" "https://example.com/job/A/" app0)

/-- 32769 pairwise distinct render-label cache keys. -/
def c4Keys : List CacheKey :=
  (List.range 32769).map (fun i => (i, "job", false, false, false, false))

/-! ## Helper lemmas -/

/-- The type mapping never yields `"root"`: the root kind exists only on the
constructed root node, never on a child built from a descriptor. -/
theorem typeOf_ne_root (cls : String) : typeOf cls ≠ "root" := by
  by_cases h1 : cls = "org.jenkinsci.plugins.workflow.job.WorkflowJob"
  · subst h1; decide
  by_cases h2 : cls = "com.cloudbees.hudson.plugins.folder.Folder"
  · subst h2; decide
  by_cases h3 : cls = "org.jenkinsci.plugins.workflow.multibranch.WorkflowMultiBranchProject"
  · subst h3; decide
  · have e1 : (cls == "org.jenkinsci.plugins.workflow.job.WorkflowJob") = false :=
      beq_eq_false_iff_ne.mpr h1
    have e2 : (cls == "com.cloudbees.hudson.plugins.folder.Folder") = false :=
      beq_eq_false_iff_ne.mpr h2
    have e3 : (cls == "org.jenkinsci.plugins.workflow.multibranch.WorkflowMultiBranchProject") = false :=
      beq_eq_false_iff_ne.mpr h3
    have hnone : type_map.lookup cls = none := by
      simp [type_map, List.lookup, e1, e2, e3]
    simp [typeOf, hnone]

/-- The flag after one more toggle. -/
theorem expandedAfter_succ (k : Nat) (b : Bool) :
    expandedAfter k (!b) = expandedAfter (k + 1) b := by
  rcases Nat.mod_two_eq_zero_or_one k with h | h <;>
    simp [expandedAfter, h, Nat.add_mod, Bool.not_not]

/-- Clicking a loaded non-job node whose name is not `"root"` only toggles its
expand flag: label, data, loaded flag and children are untouched. -/
theorem iterClick_loaded (ch : Bool) (f : Except DataSourceError (List RawJob))
    (l : String) (d : JobEntry) (c : List TreeNode)
    (hjob : d.type ≠ "job") (hname : d.name ≠ "root") :
    ∀ (k : Nat) (b : Bool),
      iterClick ch f k (TreeNode.mk l d true b c) =
        TreeNode.mk l d true (expandedAfter k b) c := by
  intro k
  induction k with
  | zero => intro b; simp [iterClick, expandedAfter]
  | succ k ih =>
    intro b
    have hstep : handle_tree_click ch f (TreeNode.mk l d true b c) =
        Except.ok (TreeNode.mk l d true (!b) c, none) := by
      simp [handle_tree_click, TreeNode.data, TreeNode.loaded, hjob, hname,
        TreeNode.toggle, TreeNode.setExpanded, TreeNode.expanded]
    have hred : iterClick ch f (k + 1) (TreeNode.mk l d true b c) =
        iterClick ch f k (TreeNode.mk l d true (!b) c) := by
      simp [iterClick, hstep]
    rw [hred, ih (!b), expandedAfter_succ]

/-- A single cache access never leaves more than `cap` keys. -/
theorem lruInsert_length_le {K : Type} [DecidableEq K] (cap : Nat) (hcap : 1 ≤ cap)
    (c : List K) (k : K) : (lruInsert cap c k).length ≤ cap := by
  simp only [lruInsert, List.length_cons, List.length_take]
  omega

/-- The cache never exceeds its capacity over any access sequence. -/
theorem lruInsertAll_length_le {K : Type} [DecidableEq K] (cap : Nat) (hcap : 1 ≤ cap) :
    ∀ (ks c : List K), c.length ≤ cap → (lruInsertAll cap c ks).length ≤ cap := by
  intro ks
  induction ks with
  | nil => intro c hc; exact hc
  | cons k t ih =>
    intro c _
    exact ih (lruInsert cap c k) (lruInsert_length_le cap hcap c k)

/-- Inserting pairwise-distinct fresh keys keeps exactly the `cap` most
recent ones, newest first. -/
theorem lruInsertAll_eq {K : Type} [DecidableEq K] (cap : Nat) (hcap : 1 ≤ cap) :
    ∀ (ks c : List K), ks.Nodup → (∀ k ∈ ks, k ∉ c) → c.length ≤ cap →
      lruInsertAll cap c ks = (ks.reverse ++ c).take cap := by
  intro ks
  induction ks with
  | nil =>
    intro c _ _ hc
    simp [lruInsertAll, List.take_of_length_le hc]
  | cons k t ih =>
    intro c hnd hdisj hc
    have hkc : k ∉ c := hdisj k (List.mem_cons_self k t)
    have hstep : lruInsert cap c k = k :: c.take (cap - 1) := by
      simp [lruInsert, List.erase_of_not_mem hkc]
    have hlen : (k :: c.take (cap - 1)).length ≤ cap := by
      simp only [List.length_cons, List.length_take]
      omega
    have hdisj2 : ∀ x ∈ t, x ∉ (k :: c.take (cap - 1)) := by
      intro x hx hmem
      rcases List.mem_cons.mp hmem with hxk | hmem2
      · exact (List.nodup_cons.mp hnd).1 (hxk ▸ hx)
      · exact hdisj x (List.mem_cons_of_mem _ hx) (List.take_subset _ _ hmem2)
    have hmain := ih (k :: c.take (cap - 1)) (List.nodup_cons.mp hnd).2 hdisj2 hlen
    have hred : lruInsertAll cap c (k :: t) =
        lruInsertAll cap (k :: c.take (cap - 1)) t := by
      simp [lruInsertAll, List.foldl_cons, hstep]
    rw [hred, hmain]
    have hsplit : ∀ (m : List K),
        (t.reverse ++ m).take cap = t.reverse.take cap ++ m.take (cap - t.reverse.length) :=
      fun m => List.take_append_eq_append_take
    rw [List.reverse_cons, List.append_assoc, List.singleton_append,
      hsplit (k :: c.take (cap - 1)), hsplit (k :: c)]
    congr 1
    rcases Nat.eq_zero_or_pos (cap - t.reverse.length) with hm | hm
    · rw [hm]; rfl
    · obtain ⟨j, hj⟩ : ∃ j, cap - t.reverse.length = j + 1 :=
        ⟨cap - t.reverse.length - 1, by omega⟩
      rw [hj]
      simp only [List.take_succ_cons]
      rw [List.take_take]
      have : min j (cap - 1) = j := by omega
      rw [this]

/-! ## Claim theorems -/

/-- Claim C2, counterexample: the code does not strip the server's own
job-path prefix — it drops only the piece before the first `/job/` separator
(the scheme and host).  The descriptor at `.../job/team/job/svc-a/` therefore
gets the name `team/svc-a`, not the `svc-a` the claim requires. -/
theorem name_derivation_cex :
    (processEntry false rawSvcA).2.name = "team/svc-a" ∧
    ¬ (processEntry false rawSvcA).2.name = "svc-a" := by
  decide

/-- Claim C2, amended: a child's name is the URL stripped of slashes, split at
`/job/`, with only the first piece (scheme and host) dropped and the rest
re-joined with `/` — i.e. the full job path relative to the server root.  A
root-level job yields its bare name, a nested one keeps every folder
segment. -/
theorem name_derivation_amended :
    (processEntry false rawTopSvcA).2.name = "svc-a" ∧
    (processEntry false rawSvcA).2.name = "team/svc-a" ∧
    fullNameOfUrl "https://example.com/job/a/job/b/job/c/" = "a/b/c" := by
  decide

/-- Claim C3, counterexample: the second dispatch branch tests the node's
name, not its kind.  An unloaded folder node whose derived name is `"root"`
(a top-level folder the server calls `root`) emits `RootSelected` and is
neither loaded nor expanded, where the claim requires load-then-expand for
every folder. -/
theorem handle_click_dispatch_cex :
    folderRootNode.data.type = "folder" ∧
    folderRootNode.loaded = false ∧
    handle_tree_click false (Except.ok []) folderRootNode =
      Except.ok (folderRootNode, some TreeMsg.rootClick) :=
  ⟨rfl, rfl, rfl⟩

/-- Claim C3, amended: `handle-click` emits `JobSelected{name, url}` for every
node of kind job with no state mutation; it emits `RootSelected` for every
node whose *name* is `"root"` (the constructed root, but also any node so
named) rather than testing the root kind; any other node is loaded and then
forced expanded when unloaded, and toggled when loaded. -/
theorem handle_click_dispatch (ch : Bool) (f : Except DataSourceError (List RawJob))
    (n : TreeNode) :
    (n.data.type = "job" →
      handle_tree_click ch f n =
        Except.ok (n, some (TreeMsg.jobClick n.data.name n.data.url))) ∧
    (n.data.type ≠ "job" → n.data.name = "root" →
      handle_tree_click ch f n = Except.ok (n, some TreeMsg.rootClick)) ∧
    (n.data.type ≠ "job" → n.data.name ≠ "root" → n.loaded = false →
      handle_tree_click ch f n =
        (load_jobs ch f n).map (fun m => (m.setExpanded true, none))) ∧
    (n.data.type ≠ "job" → n.data.name ≠ "root" → n.loaded = true →
      handle_tree_click ch f n = Except.ok (n.toggle, none)) := by
  refine ⟨?_, ?_, ?_, ?_⟩
  · intro h1
    simp [handle_tree_click, h1]
  · intro h1 h2
    simp [handle_tree_click, h1, h2]
  · intro h1 h2 h3
    cases hl : load_jobs ch f n with
    | error e => simp [handle_tree_click, h1, h2, h3, hl, Except.map]
    | ok m => simp [handle_tree_click, h1, h2, h3, hl, Except.map]
  · intro h1 h2 h3
    simp [handle_tree_click, h1, h2, h3]

/-- Witness for the amended C3 dispatch theorem: a job node emits its
name/url event, a loaded folder toggles. -/
theorem handle_click_dispatch_witness :
    (jobNodeEx.data.type = "job" ∧
      handle_tree_click false (Except.ok []) jobNodeEx =
        Except.ok (jobNodeEx,
          some (TreeMsg.jobClick "team/svc-a" "https://example.com/job/team/job/svc-a/"))) ∧
    (loadedFolderEx.data.type ≠ "job" ∧ loadedFolderEx.data.name ≠ "root" ∧
      loadedFolderEx.loaded = true ∧
      handle_tree_click false (Except.ok []) loadedFolderEx =
        Except.ok (loadedFolderEx.toggle, none)) :=
  ⟨⟨rfl, (handle_click_dispatch false (Except.ok []) jobNodeEx).1 rfl⟩,
   ⟨by decide, by decide, rfl,
    (handle_click_dispatch false (Except.ok []) loadedFolderEx).2.2.2
      (by decide) (by decide) rfl⟩⟩

/-- Claim C6: when the hierarchy fetch fails during a root load, `load_jobs`
surfaces that very failure and commits nothing — no child list and no loaded
flag ever reach the caller, so the node stays unloaded. -/
theorem load_failure_rollback (ch : Bool) (e : DataSourceError) (n : TreeNode)
    (h : n.data.type = "root") :
    load_jobs ch (Except.error e) n = Except.error e ∧
    ∀ n2, load_jobs ch (Except.error e) n ≠ Except.ok n2 := by
  constructor
  · simp [load_jobs, h]
  · intro n2
    simp [load_jobs, h]

/-- Witness for C6 at the freshly constructed root node. -/
theorem load_failure_rollback_witness :
    newTreeRoot.data.type = "root" ∧
    load_jobs false (Except.error { msg := "boom" }) newTreeRoot =
      Except.error { msg := "boom" } :=
  ⟨rfl, (load_failure_rollback false { msg := "boom" } newTreeRoot rfl).1⟩

/-- Claim C7: a descriptor without a `color` field defaults to the `"none"`
status, an unrecognized type tag defaults to the empty kind `""`, and the
per-descriptor mapping is total — a load whose fetch succeeds always
commits, whatever the descriptors contain. -/
theorem mapping_defaults (ch : Bool) (entry : RawJob) :
    (entry.rawColor = none → (processEntry ch entry).2.color = "none") ∧
    (type_map.lookup entry.rawClass = none → (processEntry ch entry).2.type = "") ∧
    (∀ (jobs : List RawJob) (n : TreeNode), ∃ n2,
      load_jobs ch (Except.ok jobs) n = Except.ok n2) := by
  refine ⟨?_, ?_, ?_⟩
  · intro h
    simp [processEntry, h]
  · intro h
    simp [processEntry, typeOf, h]
  · intro jobs n
    by_cases h : n.data.type = "root" <;> simp [load_jobs, h]

/-- Witness for C7 at a descriptor with an unknown tag and no color. -/
theorem mapping_defaults_witness :
    (rawWeird.rawColor = none ∧ type_map.lookup rawWeird.rawClass = none) ∧
    ((processEntry false rawWeird).2.color = "none" ∧
      (processEntry false rawWeird).2.type = "") :=
  ⟨⟨rfl, by decide⟩,
   ⟨(mapping_defaults false rawWeird).1 rfl,
    (mapping_defaults false rawWeird).2.1 (by decide)⟩⟩

/-- Claim C9: `action_refresh_tree` swaps in a brand-new, freshly loaded tree
and leaves the current selection, the displayed panel and the pending
callback queue untouched; the new tree does not depend on the old one. -/
theorem refresh_preserves_view (ch : Bool) (f : Except DataSourceError (List RawJob))
    (s : AppState) :
    (action_refresh_tree ch f s).current_node = s.current_node ∧
    (action_refresh_tree ch f s).panel = s.panel ∧
    (action_refresh_tree ch f s).pending = s.pending ∧
    (action_refresh_tree ch f s).tree = mountTree ch f :=
  ⟨rfl, rfl, rfl, rfl⟩

/-- Claim C10: a descriptor lacking a `jobs` field seeds its child node with
the empty list, and a later load of that non-root node — which never consults
the fetch — appends no children while still marking the node loaded and
expanded. -/
theorem seed_default_empty (ch : Bool) (entry : RawJob) (h : entry.rawJobs = none) :
    (processEntry ch entry).2.jobs = [] ∧
    ∀ (f : Except DataSourceError (List RawJob)) (l : String) (ld b : Bool)
      (c : List TreeNode),
      load_jobs ch f (TreeNode.mk l (processEntry ch entry).2 ld b c) =
        Except.ok (TreeNode.mk l (processEntry ch entry).2 true true c) := by
  have hj : (processEntry ch entry).2.jobs = [] := by simp [processEntry, h]
  have ht : (processEntry ch entry).2.type ≠ "root" := by
    have : (processEntry ch entry).2.type = typeOf entry.rawClass := by
      simp [processEntry]
    rw [this]
    exact typeOf_ne_root entry.rawClass
  refine ⟨hj, ?_⟩
  intro f l ld b c
  simp [load_jobs, TreeNode.data, TreeNode.label, TreeNode.children, ht, hj]

/-- Witness for C10 at the unknown-tag descriptor (which also lacks `jobs`). -/
theorem seed_default_empty_witness :
    rawWeird.rawJobs = none ∧
    (processEntry false rawWeird).2.jobs = [] ∧
    load_jobs false (Except.ok []) (TreeNode.mk "weird" (processEntry false rawWeird).2 false false []) =
      Except.ok (TreeNode.mk "weird" (processEntry false rawWeird).2 true true []) :=
  ⟨rfl, (seed_default_empty false rawWeird rfl).1,
   (seed_default_empty false rawWeird rfl).2 (Except.ok []) "weird" false false []⟩

/-- Claim C5: handling `RootSelected` twice in a row queues the home-panel
swap at most once, leaves `current_node` equal to `"root"`, and is a no-op
whenever the selection is already `"root"`. -/
theorem root_reselect_idempotent (s : AppState) :
    (handle_root_click (handle_root_click s)).current_node = "root" ∧
    ((handle_root_click (handle_root_click s)).pending = s.pending ∨
      (handle_root_click (handle_root_click s)).pending = s.pending ++ [Cb.setHome]) ∧
    (s.current_node = "root" → handle_root_click s = s) := by
  by_cases h : s.current_node = "root"
  · refine ⟨?_, Or.inl ?_, fun _ => ?_⟩ <;> simp [handle_root_click, h]
  · have h1 : handle_root_click s =
        { s with current_node := "root", pending := s.pending ++ [Cb.setHome] } := by
      simp [handle_root_click, h]
    have h2 : handle_root_click (handle_root_click s) = handle_root_click s := by
      rw [h1]
      simp [handle_root_click]
    refine ⟨?_, Or.inr ?_, fun hr => absurd hr h⟩ <;> rw [h2, h1]

/-- Witness for C5 at the startup state, whose selection is `"root"`. -/
theorem root_reselect_idempotent_witness :
    app0.current_node = "root" ∧
    handle_root_click app0 = app0 ∧
    (handle_root_click (handle_root_click app0)).current_node = "root" :=
  ⟨rfl, (root_reselect_idempotent app0).2.2 rfl,
   (root_reselect_idempotent app0).1⟩

/-- Claim C1, counterexample: `set_job` performs no completion-time check.
After selecting `A` then `B` (both queued before either fetch completes), the
selection is already `B`, yet running `A`'s callback swaps the panel to `A`'s
detail — the stale result is applied, not discarded. -/
theorem stale_discard_cex :
    appAB.current_node = "B" ∧
    appAB.pending = [Cb.setJob "A" "https://example.com/job/A/",
                     Cb.setJob "B" "https://example.com/job/B/"] ∧
    (runCb false giEx appAB (Cb.setJob "A" "https://example.com/job/A/")).panel =
      PanelView.detail "/job/A/" "[bold]description[/bold]\nd"
        "https://example.com/job/A/" := by
  decide

/-- Claim C1, amended: the handler sets `current_node` optimistically but the
completed fetch swaps the panel unconditionally — `A`'s result is displayed
transiently even after `B` was selected.  The final panel nevertheless
reflects `B`, because the message pump runs the queued callbacks one at a
time in FIFO order, so `B`'s swap is applied last. -/
theorem stale_discard_amended (s : AppState) (A uA B uB : String)
    (gi : String → BuildInfo) (ch : Bool)
    (hq : s.pending = []) (hA : A ≠ s.current_node) (hB : B ≠ A) :
    (runAll ch gi (handle_job_click B uB (handle_job_click A uA s))).current_node = B ∧
    (runAll ch gi (handle_job_click B uB (handle_job_click A uA s))).panel =
      jobDetailPanel ch gi uB := by
  have h1 : handle_job_click A uA s =
      { s with current_node := A, pending := s.pending ++ [Cb.setJob A uA] } := by
    simp [handle_job_click, hA]
  have h2 : handle_job_click B uB (handle_job_click A uA s) =
      { s with current_node := B,
               pending := s.pending ++ [Cb.setJob A uA] ++ [Cb.setJob B uB] } := by
    rw [h1]
    simp [handle_job_click, hB]
  rw [h2, hq]
  constructor <;> rfl

/-- Witness for the amended C1 theorem: concrete selections `A` then `B`. -/
theorem stale_discard_amended_witness :
    (app0.pending = [] ∧ "A" ≠ app0.current_node ∧ "B" ≠ "A") ∧
    ((runAll false giEx appAB).current_node = "B" ∧
      (runAll false giEx appAB).panel =
        jobDetailPanel false giEx "https://example.com/job/B/") :=
  ⟨⟨rfl, by decide, by decide⟩,
   stale_discard_amended app0 "A" "https://example.com/job/A/" "B"
     "https://example.com/job/B/" giEx false rfl (by decide) (by decide)⟩

/-- Claim C8: over a whole session of clicks on a folder or multibranch node
(not a job, not named `"root"`), the seed children are appended exactly once.
The first click loads and expands; every later click only toggles the expand
flag, so the loaded flag stays set and the child list never changes — in
particular children are never duplicated. -/
theorem load_once_invariant (ch : Bool) (f : Except DataSourceError (List RawJob))
    (l : String) (d : JobEntry) (b : Bool) (c : List TreeNode)
    (hjob : d.type ≠ "job") (hname : d.name ≠ "root") (hroot : d.type ≠ "root")
    (k : Nat) :
    iterClick ch f (k + 1) (TreeNode.mk l d false b c) =
      TreeNode.mk l d true (expandedAfter k true)
        (c ++ d.jobs.map (mkChildNode ch)) := by
  have hload : load_jobs ch f (TreeNode.mk l d false b c) =
      Except.ok (TreeNode.mk l d true true (c ++ d.jobs.map (mkChildNode ch))) := by
    simp [load_jobs, TreeNode.data, TreeNode.label, TreeNode.children, hroot]
  have hstep : handle_tree_click ch f (TreeNode.mk l d false b c) =
      Except.ok (TreeNode.mk l d true true (c ++ d.jobs.map (mkChildNode ch)), none) := by
    simp [handle_tree_click, TreeNode.data, TreeNode.loaded, hjob, hname, hload,
      TreeNode.setExpanded]
  have hred : iterClick ch f (k + 1) (TreeNode.mk l d false b c) =
      iterClick ch f k (TreeNode.mk l d true true (c ++ d.jobs.map (mkChildNode ch))) := by
    simp [iterClick, hstep]
  rw [hred]
  exact iterClick_loaded ch f l d _ hjob hname k true

/-- Witness for C8: two clicks on a seeded folder node load it once and then
toggle it, leaving exactly the one appended child. -/
theorem load_once_invariant_witness :
    (folderEntryEx.type ≠ "job" ∧ folderEntryEx.name ≠ "root" ∧
      folderEntryEx.type ≠ "root") ∧
    iterClick false (Except.ok []) 2 (TreeNode.mk "team" folderEntryEx false false []) =
      TreeNode.mk "team" folderEntryEx true (expandedAfter 1 true)
        ([] ++ folderEntryEx.jobs.map (mkChildNode false)) :=
  ⟨⟨by decide, by decide, by decide⟩,
   load_once_invariant false (Except.ok []) "team" folderEntryEx false []
     (by decide) (by decide) (by decide) 1⟩

/-- Claim C4: the render-label cache is keyed by the full six-tuple
(`CacheKey`), never holds more than its fixed capacity of 32768 entries, and
evicts least-recently-used first: after any sequence of more than 32768
pairwise-distinct keys, exactly 32768 entries remain and they are precisely
the 32768 most recently used keys. -/
theorem render_label_cache_bound (ks : List CacheKey) (hnd : ks.Nodup)
    (hlen : cacheCapacity < ks.length) :
    (lruInsertAll cacheCapacity [] ks).length = cacheCapacity ∧
    (∀ k : CacheKey,
      k ∈ lruInsertAll cacheCapacity [] ks ↔ k ∈ ks.reverse.take cacheCapacity) ∧
    (∀ ks2 : List CacheKey, (lruInsertAll cacheCapacity [] ks2).length ≤ cacheCapacity) := by
  have hcap : 1 ≤ cacheCapacity := by norm_num [cacheCapacity]
  have heq : lruInsertAll cacheCapacity ([] : List CacheKey) ks =
      (ks.reverse ++ []).take cacheCapacity :=
    lruInsertAll_eq cacheCapacity hcap ks [] hnd (by simp) (by simp)
  rw [List.append_nil] at heq
  refine ⟨?_, ?_, ?_⟩
  · rw [heq]
    simp only [List.length_take, List.length_reverse]
    omega
  · intro k
    rw [heq]
  · intro ks2
    exact lruInsertAll_length_le cacheCapacity hcap ks2 [] (by simp)

/-- Witness for C4: 32769 distinct keys leave exactly 32768 cached. -/
theorem render_label_cache_bound_witness :
    (c4Keys.Nodup ∧ cacheCapacity < c4Keys.length) ∧
    (lruInsertAll cacheCapacity [] c4Keys).length = cacheCapacity := by
  have hinj : Function.Injective
      (fun i : Nat => ((i, "job", false, false, false, false) : CacheKey)) :=
    fun a b h => by simpa using congrArg Prod.fst h
  have hnd : c4Keys.Nodup := List.Nodup.map hinj (List.nodup_range 32769)
  have hlen : cacheCapacity < c4Keys.length := by
    simp [c4Keys, cacheCapacity]
  exact ⟨⟨hnd, hlen⟩, (render_label_cache_bound c4Keys hnd hlen).1⟩
